import Mathlib

/-!
Verification of the heuristic transaction-normalization pipeline of `app.py`
(live expense dashboard).  The pipeline stages modelled here, following the
source: column-role resolution (app.py lines 152-158), amount parsing
(163-182), date parsing (185-204), type classification (207-217), merchant
extraction (260-263) and the aggregates (226-227, 241, 247-249, 262-264,
270-272).

Modelling conventions:
* a raw cell is a string or a number (`Cell`); a missing cell is `Option.none`
  (pandas `NaN`);
* `float` amounts are modelled by `ℚ`;
* `pd.to_datetime(..., errors="coerce")` is modelled for ISO `YYYY-MM-DD`
  string cells; other textual formats and numeric (epoch) cells are treated
  as unparseable.  The theorems quantifying over all datasets do not depend
  on which cells parse, and all concrete inputs below use ISO dates;
* string functions are re-implemented over `List Char` (lower-casing is
  ASCII, trimming removes whitespace) mirroring the Python `str` methods
  used by the source.
-/

set_option maxRecDepth 4000

namespace App

/-- A raw cell value as delivered by the sheet: free text or a number. -/
inductive Cell where
  | str (s : String)
  | num (q : ℚ)
deriving DecidableEq

/-- One row of the source sheet: an ordered mapping column name to cell. -/
abbrev RawRecord := List (String × Cell)

/-- Look a column up in a record; `none` models a pandas `NaN` hole. -/
def getCell (r : RawRecord) (c : String) : Option Cell :=
  (r.find? (fun p => p.1 = c)).map Prod.snd

/-- ASCII lower-casing of a string, as `str.lower()` acts on the data here. -/
def strLower (s : String) : String := ⟨s.data.map Char.toLower⟩

/-- Python whitespace characters (as stripped by `str.strip()`). -/
def wsChar (c : Char) : Bool :=
  c = ' ' || c = '\t' || c = '\n' || c = '\r' || c = '\x0b' || c = '\x0c'

/-- Remove leading and trailing whitespace from a char list. -/
def trimL (cs : List Char) : List Char :=
  ((cs.dropWhile wsChar).reverse.dropWhile wsChar).reverse

/-- Python `str.strip()`. -/
def strTrim (s : String) : String := ⟨trimL s.data⟩

/-- Python substring test `sub in s`. -/
def containsL (sub cs : List Char) : Bool :=
  cs.tails.any (fun t => sub.isPrefixOf t)

/-- Split a char list on a separator character (`str.split(sep)` for a
one-character separator, as used on the date strings). -/
def splitOnC (sep : Char) : List Char → List (List Char)
  | [] => [[]]
  | c :: rest =>
    let r := splitOnC sep rest
    if c = sep then [] :: r
    else
      match r with
      | h :: t => (c :: h) :: t
      | [] => [[c]]

/-- Digit-string to number. -/
def digitsToNat (cs : List Char) : ℕ :=
  cs.foldl (fun a c => a * 10 + (c.toNat - 48)) 0

/-- Decimal digits of a natural number, used when the model prints numbers. -/
def natChars (n : ℕ) : List Char := Nat.toDigits 10 n

/-- Decimal digits of an integer. -/
def intChars : ℤ → List Char
  | Int.ofNat n => natChars n
  | Int.negSucc n => '-' :: natChars (n + 1)

/-- `str(x)` for a float cell.  Integral values print as Python floats
(`-50.0`); non-integral values are approximated by `num/den` — they only
feed heuristic free-text paths that no claim exercises. -/
def floatStr (q : ℚ) : String :=
  if q.den = 1 then ⟨intChars q.num ++ ['.', '0']⟩
  else ⟨intChars q.num ++ '/' :: natChars q.den⟩

/-- `astype(str)` on one cell: a missing value prints as the string `nan`. -/
def strOfCell : Option Cell → String
  | none => "nan"
  | some (Cell.str s) => s
  | some (Cell.num q) => floatStr q

/-- The unsigned part of `float(s)`: digits with an optional fractional
part.  Exponent and `inf`/`nan` forms are not modelled (no claim uses
them). -/
def parseUnsigned (cs : List Char) : Option ℚ :=
  let ip := cs.takeWhile Char.isDigit
  let rest := cs.dropWhile Char.isDigit
  match rest with
  | [] => if ip.isEmpty then none else some ((digitsToNat ip : ℤ) : ℚ)
  | '.' :: fr =>
    if fr.all Char.isDigit && !(ip.isEmpty && fr.isEmpty) then
      if fr.isEmpty then some ((digitsToNat ip : ℤ) : ℚ)
      else some (mkRat ((digitsToNat ip) * 10 ^ fr.length + digitsToNat fr) (10 ^ fr.length))
    else none
  | _ => none

/-- `pd.to_numeric(s, errors="coerce")` on a string cell: Python float
syntax (optional sign, digits, optional fraction), whitespace tolerated,
anything else coerces to `NaN` (`none`). -/
def parseNumStr (s : String) : Option ℚ :=
  match trimL s.data with
  | '-' :: rest => (parseUnsigned rest).map (fun q => -q)
  | '+' :: rest => parseUnsigned rest
  | cs => parseUnsigned cs

/-- `pd.to_numeric(..., errors="coerce")` on one cell. -/
def toNumeric : Option Cell → Option ℚ
  | none => none
  | some (Cell.num q) => some q
  | some (Cell.str s) => parseNumStr s

/-- Value of the leftmost match of `[-]?\d+\d*(\.\d+)?` starting at a digit
run (commas were already removed). -/
def matchNumVal (cs : List Char) : ℚ :=
  let ip := cs.takeWhile Char.isDigit
  let rest := cs.dropWhile Char.isDigit
  match rest with
  | '.' :: fr1 =>
    let fr := fr1.takeWhile Char.isDigit
    if fr.isEmpty then ((digitsToNat ip : ℤ) : ℚ)
    else mkRat ((digitsToNat ip) * 10 ^ fr.length + digitsToNat fr) (10 ^ fr.length)
  | _ => ((digitsToNat ip : ℤ) : ℚ)

/-- Leftmost `re.search` of `[-]?\d+[\d,]*(\.\d+)?` over comma-free text
(app.py `extract_num`). -/
def scanNum : List Char → Option ℚ
  | [] => none
  | '-' :: rest =>
    match rest with
    | d :: _ => if d.isDigit then some (-(matchNumVal rest)) else scanNum rest
    | [] => none
  | c :: rest => if c.isDigit then some (matchNumVal (c :: rest)) else scanNum rest

/-- `extract_num` of app.py lines 172-181: strip commas, search the first
signed decimal number in the text. -/
def extractNum (s : String) : Option ℚ :=
  scanNum (s.data.filter (fun c => !(c = ',')))

/-- A calendar date; `pd.Timestamp` at the day resolution used by every
aggregate (`dt.date`, `dt.to_period("M")`, `dt.day_name()`). -/
structure Date where
  year : ℕ
  month : ℕ
  day : ℕ
deriving DecidableEq

/-- Gregorian leap year. -/
def isLeap (y : ℕ) : Bool := (y % 4 = 0 && !(y % 100 = 0)) || (y % 400 = 0)

/-- Number of days of a month. -/
def daysInMonth (y m : ℕ) : ℕ :=
  if m = 2 then (if isLeap y then 29 else 28)
  else if m = 4 || m = 6 || m = 9 || m = 11 then 30 else 31

/-- `pd.to_datetime(s, errors="coerce")` for ISO `YYYY-MM-DD` strings,
validating the calendar; other formats coerce to `NaT` (`none`). -/
def parseISODate (s : String) : Option Date :=
  match splitOnC '-' (trimL s.data) with
  | [ys, ms, ds] =>
    if !ys.isEmpty && !ms.isEmpty && !ds.isEmpty && (ys ++ ms ++ ds).all Char.isDigit then
      let y := digitsToNat ys
      let m := digitsToNat ms
      let d := digitsToNat ds
      if 1 ≤ m && m ≤ 12 && 1 ≤ d && d ≤ daysInMonth y m then some ⟨y, m, d⟩ else none
    else none
  | _ => none

/-- `pd.to_datetime(..., errors="coerce")` on one cell (see the modelling
note in the header: only ISO string cells parse). -/
def parseDT : Option Cell → Option Date
  | some (Cell.str s) => parseISODate s
  | _ => none

/-- Day-of-week index of a date, 0 = Sunday (Sakamoto's method). -/
def dayIdx (dt : Date) : ℕ :=
  let y : ℤ := if dt.month < 3 then (dt.year : ℤ) - 1 else (dt.year : ℤ)
  let t : List ℕ := [0, 3, 2, 5, 0, 3, 5, 1, 4, 6, 2, 4]
  ((y + y.fdiv 4 - y.fdiv 100 + y.fdiv 400 + (t.getD (dt.month - 1) 0 : ℤ) + (dt.day : ℤ)) % 7).toNat

/-- Weekday names indexed with 0 = Sunday. -/
def sakNames : List String :=
  ["Sunday", "Monday", "Tuesday", "Wednesday", "Thursday", "Friday", "Saturday"]

/-- `dt.day_name()` of a date. -/
def dayName (dt : Date) : String := sakNames.getD (dayIdx dt) ""

/-- Left-pad digits with zeros to a given width. -/
def padChars (w : ℕ) (cs : List Char) : List Char :=
  List.replicate (w - cs.length) '0' ++ cs

/-- `str(ts.to_period("M"))`: the `YYYY-MM` string of a date. -/
def monthStr (dt : Date) : String :=
  ⟨padChars 4 (natChars dt.year) ++ '-' :: padChars 2 (natChars dt.month)⟩

/-- `dt.to_period("M").astype(str)` on the `DateTime` column: a missing
timestamp prints as the literal string `NaT` (app.py line 203). -/
def monthOf : Option Date → String
  | some d => monthStr d
  | none => "NaT"

/-- Python truthiness-based `or` on an optional column name (`None` and the
empty string are falsy). -/
def pyOr (a b : Option String) : Option String :=
  match a with
  | some s => if s = "" then b else some s
  | none => b

/-- The dictionary `{c.lower(): c for c in df.columns}` (app.py line 152)
probed at key `k`: the comprehension keeps the last column whose
lower-casing is `k`. -/
def colCandidates (cols : List String) (k : String) : Option String :=
  (cols.filter (fun c => strLower c = k)).getLast?

/-- Resolve one role through its ordered synonym list with Python `or`
chaining (`col_candidates.get(k1) or col_candidates.get(k2) or None`). -/
def resolveRole (cols : List String) : List String → Option String
  | [] => none
  | k :: rest => pyOr (colCandidates cols k) (resolveRole cols rest)

/-- The resolved column roles (app.py lines 153-157). -/
structure RoleMap where
  date_col : Option String
  amount_col : Option String
  type_col : Option String
  bank_col : Option String
  message_col : Option String
deriving DecidableEq

/-- Column-role resolution over the raw column names (app.py lines 152-157). -/
def resolve (cols : List String) : RoleMap :=
  { date_col := resolveRole cols ["datetime", "date"]
    amount_col := resolveRole cols ["amount", "amt"]
    type_col := resolveRole cols ["type"]
    bank_col := resolveRole cols ["bank"]
    message_col := resolveRole cols ["message", "msg"] }

/-- Columns of `pd.DataFrame.from_records(records)`: union of the record
keys in first-appearance order. -/
def columnsOf (rs : List RawRecord) : List String :=
  rs.foldl (fun acc r => acc ++ (r.map Prod.fst).filter (fun c => !(acc.contains c))) []

/-- Whether a column has a numeric pandas dtype: every present cell is a
number (`select_dtypes(include=["number"])`). -/
def isNumericCol (rs : List RawRecord) (c : String) : Bool :=
  rs.all (fun r =>
    match getCell r c with
    | some (Cell.str _) => false
    | _ => true)

/-- The column the amount is parsed from, if any (app.py lines 163-169):
the resolved amount column, else the first numeric column; `none` selects
the text-extraction fallback. -/
def amountSrc (rs : List RawRecord) (roles : RoleMap) : Option String :=
  match roles.amount_col with
  | some c => some c
  | none => (columnsOf rs).find? (fun c => isNumericCol rs c)

/-- `row.astype(str).str.cat(sep=" ")`: the record's cells printed and
joined with spaces in column order. -/
def rowText (cols : List String) (r : RawRecord) : String :=
  ⟨List.intercalate [' '] (cols.map (fun c => (strOfCell (getCell r c)).data))⟩

/-- The parsed `Amount` of one record (app.py lines 163-182). -/
def amountOf (rs : List RawRecord) (roles : RoleMap) (r : RawRecord) : Option ℚ :=
  match amountSrc rs roles with
  | some c => toNumeric (getCell r c)
  | none => extractNum (rowText (columnsOf rs) r)

/-- The columns of `work` after the `Amount` assignment: the raw columns
with `Amount` appended when not already present. -/
def workColumns (rs : List RawRecord) : List String :=
  let cs := columnsOf rs
  if cs.contains "Amount" then cs else cs ++ ["Amount"]

/-- Cell of the `work` table after the `Amount` assignment: column
`Amount` holds the parsed amount, every other column the raw cell. -/
def workCell (r : RawRecord) (amt : Option ℚ) (c : String) : Option Cell :=
  if c = "Amount" then amt.map Cell.num else getCell r c

/-- The column the `DateTime` is parsed from (app.py lines 185-200): the
resolved date column, else the first work column where at least one row
parses; `none` leaves every row `NaT`. -/
def dateSrc (rs : List RawRecord) (roles : RoleMap) : Option String :=
  match roles.date_col with
  | some c => some c
  | none =>
    (workColumns rs).find? (fun c =>
      rs.any (fun r => (parseDT (workCell r (amountOf rs roles r) c)).isSome))

/-- The parsed `DateTime` of one record. -/
def dtOf (rs : List RawRecord) (roles : RoleMap) (r : RawRecord) : Option Date :=
  match dateSrc rs roles with
  | some c => parseDT (workCell r (amountOf rs roles r) c)
  | none => none

/-- The message-keyword classifier of app.py line 216: the lambda applied
to the lower-cased message text.  Note it always returns one of the three
strings, never a missing value. -/
def msgClass (x : String) : String :=
  if containsL ['d', 'e', 'b'] x.data || containsL ['w', 'i', 't', 'h', 'd', 'r', 'a', 'w'] x.data
      || containsL ['p', 'a', 'i', 'd'] x.data then "debit"
  else if containsL ['c', 'r', 'e', 'd'] x.data
      || containsL ['c', 'r', 'e', 'd', 'i', 't', 'e', 'd'] x.data then "credit"
  else "unknown"

/-- The sign-based type of app.py lines 211-213 (`NaN` compares false on
both sides, so an absent amount stays `unknown`). -/
def signType (amt : Option ℚ) : String :=
  match amt with
  | some q => if q < 0 then "debit" else if q > 0 then "credit" else "unknown"
  | none => "unknown"

/-- `Series.combine_first` at one position: the left value wins when
present, the right value fills a hole. -/
def combine_first (a : Option String) (b : String) : String := a.getD b

/-- The `Type` column of one record (app.py lines 207-217).  When the
message column is resolved, the classifier series is total (see
`msgClass`), so `combine_first` never falls back to the sign-based type. -/
def typeOf (roles : RoleMap) (r : RawRecord) (amt : Option ℚ) : String :=
  match roles.type_col with
  | some c => strTrim (strLower (strOfCell (getCell r c)))
  | none =>
    match roles.message_col with
    | some c => combine_first (some (msgClass (strLower (strOfCell (getCell r c))))) (signType amt)
    | none => signType amt

/-- Characters of the merchant capture class `[A-Za-z0-9 &\.\-\/]`. -/
def mClassChar (c : Char) : Bool :=
  c.isAlpha || c.isDigit || c = ' ' || c = '&' || c = '.' || c = '-' || c = '/'

/-- `\s+` then the greedy 3-60 character class with backtracking: try the
longest whitespace run first and give characters back to the class. -/
def tryWs : ℕ → List Char → Option (List Char)
  | 0, _ => none
  | k + 1, cs =>
    let run := ((cs.drop (k + 1)).takeWhile mClassChar).take 60
    if 3 ≤ run.length then some run else tryWs k cs

/-- Match `\s+([A-Za-z0-9 &\.\-\/]{3,60})` at the start of `cs`. -/
def matchTail (cs : List Char) : Option (List Char) :=
  tryWs (cs.takeWhile wsChar).length cs

/-- Try one literal alternative of `(?:To|to|at|@)` at the current
position, then the tail of the pattern. -/
def tryAlt (p cs : List Char) : Option (List Char) :=
  if p.isPrefixOf cs then matchTail (cs.drop p.length) else none

/-- All four alternatives in order at the current position. -/
def tryHere (cs : List Char) : Option (List Char) :=
  match tryAlt ['T', 'o'] cs with
  | some g => some g
  | none =>
    match tryAlt ['t', 'o'] cs with
    | some g => some g
    | none =>
      match tryAlt ['a', 't'] cs with
      | some g => some g
      | none => tryAlt ['@'] cs

/-- Leftmost `re.search` of the merchant pattern
`(?:To|to|at|@)\s+([A-Za-z0-9 &\.\-\/]{3,60})` (app.py line 262). -/
def merchantSearch : List Char → Option (List Char)
  | [] => none
  | c :: rest =>
    match tryHere (c :: rest) with
    | some g => some g
    | none => merchantSearch rest

/-- The extracted merchant of one message text: first capture, no-match
filled with the empty string, then stripped (app.py lines 262-263). -/
def merchantOf (s : String) : String :=
  match merchantSearch s.data with
  | some g => ⟨trimL g⟩
  | none => ""

/-- The merchant column: only built when the message role resolved; the
model fills the empty string otherwise (such rows are excluded from the
merchant aggregate either way). -/
def merchOf (roles : RoleMap) (r : RawRecord) : String :=
  match roles.message_col with
  | some c => merchantOf (strOfCell (getCell r c))
  | none => ""

/-- One row of the cleaned `work` table. -/
structure Transaction where
  raw : RawRecord
  amount : Option ℚ
  timestamp : Option Date
  date : Option Date
  month : String
  weekday : Option String
  type : String
  merchant : String
deriving DecidableEq

/-- Normalize and classify one record (app.py lines 160-217, 262-263). -/
def mkTransaction (rs : List RawRecord) (roles : RoleMap) (r : RawRecord) : Transaction :=
  { raw := r
    amount := amountOf rs roles r
    timestamp := dtOf rs roles r
    date := dtOf rs roles r
    month := monthOf (dtOf rs roles r)
    weekday := (dtOf rs roles r).map dayName
    type := typeOf roles r (amountOf rs roles r)
    merchant := merchOf roles r }

/-- The full normalization-and-classification pipeline: one transaction
per raw record, in order. -/
def pipeline (rs : List RawRecord) : List Transaction :=
  rs.map (mkTransaction rs (resolve (columnsOf rs)))

/-- Sum of a list of rationals (pandas `sum()` with `skipna`: the inputs
are the present amounts; the empty sum is 0). -/
def qsum : List ℚ → ℚ
  | [] => 0
  | [a] => a
  | a :: b :: l => a + qsum (b :: l)

/-- Stable insertion into a sorted list. -/
def insertLe {α : Type} (le : α → α → Bool) (a : α) : List α → List α
  | [] => [a]
  | b :: l => if le a b then a :: b :: l else b :: insertLe le a l

/-- Stable sort by a boolean relation (models the sorted outputs of
pandas `groupby` and `sort_values`). -/
def sortLe {α : Type} (le : α → α → Bool) : List α → List α
  | [] => []
  | a :: l => insertLe le a (sortLe le l)

/-- Lexicographic order on char lists (Python string comparison). -/
def lexLE : List Char → List Char → Bool
  | [], _ => true
  | _ :: _, [] => false
  | a :: as, b :: bs => if a = b then lexLE as bs else decide (a < b)

/-- String order. -/
def strLE (a b : String) : Bool := lexLE a.data b.data

/-- Order on dates. -/
def dateLE (a b : Date) : Bool :=
  if a.year = b.year then
    (if a.month = b.month then decide (a.day ≤ b.day) else decide (a.month ≤ b.month))
  else decide (a.year ≤ b.year)

/-- Order on `(Month, Type)` group keys. -/
def keyLE (a b : String × String) : Bool :=
  if a.1 = b.1 then strLE a.2 b.2 else strLE a.1 b.1

/-- The debit rows of the cleaned table (`work[work["Type"] == "debit"]`). -/
def debitRows (ts : List Transaction) : List Transaction :=
  ts.filter (fun t => t.type = "debit")

/-- `Total Spent (Debit)` (app.py line 226): sum of the present amounts of
the debit rows. -/
def total_debit (ts : List Transaction) : ℚ :=
  qsum ((debitRows ts).filterMap (fun t => t.amount))

/-- `Total Credit` (app.py line 227). -/
def total_credit (ts : List Transaction) : ℚ :=
  qsum ((ts.filter (fun t => t.type = "credit")).filterMap (fun t => t.amount))

/-- The daily group sum: present amounts of the debit rows on one date. -/
def dailySum (ts : List Transaction) (d : Date) : ℚ :=
  qsum (((debitRows ts).filter (fun t => t.date = some d)).filterMap (fun t => t.amount))

/-- Daily debit totals (app.py line 241): debit rows grouped by `Date`
(missing dates dropped by `groupby`), keys sorted, each group summing its
present amounts. -/
def daily (ts : List Transaction) : List (Date × ℚ) :=
  (sortLe dateLE (((debitRows ts).filterMap (fun t => t.date)).dedup)).map
    (fun d => (d, dailySum ts d))

/-- The monthly group sum for one `(Month, Type)` key. -/
def monthlySum (ts : List Transaction) (k : String × String) : ℚ :=
  qsum ((ts.filter (fun t => t.month = k.1 && t.type = k.2)).filterMap (fun t => t.amount))

/-- Monthly totals by kind (app.py line 247): all rows grouped by the
`(Month, Type)` string pair (never missing), keys sorted. -/
def monthly (ts : List Transaction) : List ((String × String) × ℚ) :=
  (sortLe keyLE ((ts.map (fun t => (t.month, t.type))).dedup)).map
    (fun k => (k, monthlySum ts k))

/-- The fixed weekday reindexing order of app.py lines 270-272. -/
def weekdayNames : List String :=
  ["Monday", "Tuesday", "Wednesday", "Thursday", "Friday", "Saturday", "Sunday"]

/-- Present amounts of the debit rows on one weekday. -/
def weekdayVals (ts : List Transaction) (w : String) : List ℚ :=
  ((debitRows ts).filter (fun t => t.weekday = some w)).filterMap (fun t => t.amount)

/-- The mean of a weekday group: missing when the group has no present
amount (pandas `mean()` skips `NaN` and an absent reindexed group is
`NaN`). -/
def weekdayMean (ts : List Transaction) (w : String) : Option ℚ :=
  if (weekdayVals ts w).isEmpty then none
  else some (qsum (weekdayVals ts w) / ((weekdayVals ts w).length : ℚ))

/-- Average debit amount per weekday (app.py lines 270-272): the group
means reindexed over the fixed Monday..Sunday list. -/
def weekdayAvg (ts : List Transaction) : List (String × Option ℚ) :=
  weekdayNames.map (fun w => (w, weekdayMean ts w))

/-- Rows with a non-empty extracted merchant (`work[work["merchant"] != ""]`). -/
def merchantRows (ts : List Transaction) : List Transaction :=
  ts.filter (fun t => !(t.merchant = ""))

/-- The merchant group sum. -/
def merchantSum (ts : List Transaction) (m : String) : ℚ :=
  qsum (((merchantRows ts).filter (fun t => t.merchant = m)).filterMap (fun t => t.amount))

/-- Top merchants (app.py line 264): rows with a non-empty merchant
grouped by merchant (keys sorted by `groupby`), then sorted by total
descending and truncated to the first 10. -/
def top_merchants (ts : List Transaction) : List (String × ℚ) :=
  (sortLe (fun a b => decide (b.2 ≤ a.2))
    ((sortLe strLE (((merchantRows ts).map (fun t => t.merchant)).dedup)).map
      (fun m => (m, merchantSum ts m)))).take 10

/-! Concrete inputs used by the per-claim counterexamples and witnesses. -/

/-- The explicit-type record of the C1 scenario: type text trimming to
`debit` while the message contains `credited`. -/
def C1rs : List RawRecord :=
  [[("Type", Cell.str " Debit "), ("Message", Cell.str "amount credited to account"),
    ("Amount", Cell.str "100")]]

/-- The transaction the pipeline produces for `C1rs`. -/
def C1t : Transaction :=
  { raw := [("Type", Cell.str " Debit "), ("Message", Cell.str "amount credited to account"),
      ("Amount", Cell.str "100")]
    amount := some 100
    timestamp := none
    date := none
    month := "NaT"
    weekday := none
    type := "debit"
    merchant := "account" }

/-- A record with a keyword-free message and a negative amount: the sign
fallback the spec describes would classify it `debit`. -/
def C2rs : List RawRecord :=
  [[("Message", Cell.str "hello"), ("Amount", Cell.str "-50")]]

/-- The two-record scenario of C3. -/
def C3rs : List RawRecord :=
  [[("Date", Cell.str "2024-01-01"), ("Amount", Cell.str "-50"), ("Type", Cell.str "Debit")],
   [("Date", Cell.str "2024-01-01"), ("Amount", Cell.str "100"), ("Type", Cell.str "Credit")]]

/-- A one-record dataset for the C4 witness. -/
def C4rs : List RawRecord := [[("Amount", Cell.str "7")]]

/-- The transaction the pipeline produces for `C4rs`. -/
def C4t : Transaction :=
  { raw := [("Amount", Cell.str "7")]
    amount := some 7
    timestamp := none
    date := none
    month := "NaT"
    weekday := none
    type := "credit"
    merchant := "" }

/-- A dataset without a type column for the C5 witness. -/
def C5rs : List RawRecord := [[("Amount", Cell.str "-5")]]

/-- The transaction the pipeline produces for `C5rs`. -/
def C5t : Transaction :=
  { raw := [("Amount", Cell.str "-5")]
    amount := some (-5)
    timestamp := none
    date := none
    month := "NaT"
    weekday := none
    type := "debit"
    merchant := "" }

/-- A table with one credit row (no debit data on any weekday). -/
def C6ts : List Transaction :=
  [{ raw := []
     amount := some 7
     timestamp := some ⟨2024, 1, 2⟩
     date := some ⟨2024, 1, 2⟩
     month := "2024-01"
     weekday := some "Tuesday"
     type := "credit"
     merchant := "" }]

/-- A table with one debit row with a merchant. -/
def C7ts : List Transaction :=
  [{ raw := []
     amount := some 5
     timestamp := none
     date := none
     month := "NaT"
     weekday := none
     type := "debit"
     merchant := "Acme" }]

/-- A debit record with a valid date and a non-numeric amount. -/
def C9rs : List RawRecord :=
  [[("Date", Cell.str "2024-01-01"), ("Amount", Cell.str "N/A"), ("Type", Cell.str "Debit")]]

/-- A table with one absent-amount debit row on a Monday. -/
def C9ts : List Transaction :=
  [{ raw := []
     amount := none
     timestamp := some ⟨2024, 1, 1⟩
     date := some ⟨2024, 1, 1⟩
     month := "2024-01"
     weekday := some "Monday"
     type := "debit"
     merchant := "" }]

/-- A record whose date cell does not parse, for the C10 witness. -/
def C10rs : List RawRecord :=
  [[("Date", Cell.str "garbage"), ("Amount", Cell.str "5")]]

/-- The transaction the pipeline produces for `C10rs`. -/
def C10t : Transaction :=
  { raw := [("Date", Cell.str "garbage"), ("Amount", Cell.str "5")]
    amount := some 5
    timestamp := none
    date := none
    month := "NaT"
    weekday := none
    type := "credit"
    merchant := "" }

/-! Helper lemmas. -/

theorem qsum_cons (a : ℚ) (l : List ℚ) : qsum (a :: l) = a + qsum l := by
  cases l with
  | nil => simp [qsum]
  | cons b l => rfl

theorem mem_insertLe {α : Type} (le : α → α → Bool) (a x : α) :
    ∀ l : List α, x ∈ insertLe le a l ↔ x = a ∨ x ∈ l
  | [] => by simp [insertLe]
  | b :: l => by
    rw [insertLe]
    by_cases h : le a b = true
    · rw [if_pos h]
      simp [List.mem_cons]
    · rw [if_neg h]
      rw [List.mem_cons, List.mem_cons, mem_insertLe le a x l]
      tauto

theorem mem_sortLe {α : Type} (le : α → α → Bool) (x : α) :
    ∀ l : List α, x ∈ sortLe le l ↔ x ∈ l
  | [] => Iff.rfl
  | a :: l => by
    rw [sortLe, mem_insertLe le a x (sortLe le l), mem_sortLe le x l, List.mem_cons]

theorem pairwise_insertLe {α : Type} (le : α → α → Bool)
    (total : ∀ a b, le a b = true ∨ le b a = true)
    (htrans : ∀ a b c, le a b = true → le b c = true → le a c = true)
    (a : α) :
    ∀ l : List α, l.Pairwise (fun x y => le x y = true) →
      (insertLe le a l).Pairwise (fun x y => le x y = true)
  | [], _ => by simp [insertLe]
  | b :: l, h => by
    rcases List.pairwise_cons.1 h with ⟨h1, h2⟩
    rw [insertLe]
    by_cases hab : le a b = true
    · rw [if_pos hab]
      refine List.pairwise_cons.2 ⟨?_, h⟩
      intro y hy
      rcases List.mem_cons.1 hy with rfl | hyl
      · exact hab
      · exact htrans a b y hab (h1 y hyl)
    · rw [if_neg hab]
      refine List.pairwise_cons.2 ⟨?_, pairwise_insertLe le total htrans a l h2⟩
      intro y hy
      rcases (mem_insertLe le a y l).1 hy with hya | hyl
      · rw [hya]
        rcases total a b with h' | h'
        · exact absurd h' hab
        · exact h'
      · exact h1 y hyl

theorem pairwise_sortLe {α : Type} (le : α → α → Bool)
    (total : ∀ a b, le a b = true ∨ le b a = true)
    (htrans : ∀ a b c, le a b = true → le b c = true → le a c = true) :
    ∀ l : List α, (sortLe le l).Pairwise (fun x y => le x y = true)
  | [] => List.Pairwise.nil
  | a :: l => pairwise_insertLe le total htrans a (sortLe le l) (pairwise_sortLe le total htrans l)

theorem filterMap_amount_filter (p : Transaction → Bool) :
    ∀ ts : List Transaction,
      (ts.filter (fun t => p t && t.amount.isSome)).filterMap (fun t => t.amount)
        = (ts.filter p).filterMap (fun t => t.amount)
  | [] => rfl
  | t :: ts => by
    by_cases hp : p t = true
    · cases ha : t.amount with
      | none =>
        simp [List.filter_cons, List.filterMap_cons, hp, ha, filterMap_amount_filter p ts]
      | some q =>
        simp [List.filter_cons, List.filterMap_cons, hp, ha, filterMap_amount_filter p ts]
    · simp [List.filter_cons, hp, filterMap_amount_filter p ts]

theorem strLower_empty : strLower "" = "" := by decide

theorem colCandidates_eq_some {cols : List String} {k c : String}
    (h : colCandidates cols k = some c) : c ∈ cols ∧ strLower c = k := by
  have hm := List.mem_of_getLast?_eq_some h
  have hf := List.mem_filter.1 hm
  exact ⟨hf.1, by simpa using hf.2⟩

theorem colCandidates_eq_none {cols : List String} {k : String}
    (h : ∀ c ∈ cols, ¬ strLower c = k) : colCandidates cols k = none := by
  have he : cols.filter (fun c => strLower c = k) = [] :=
    List.filter_eq_nil_iff.2 (fun c hc => by simpa using h c hc)
  rw [colCandidates, he]
  rfl

theorem colCandidates_exists {cols : List String} {k c0 : String}
    (h0 : c0 ∈ cols) (hk : strLower c0 = k) :
    ∃ c, colCandidates cols k = some c := by
  have hne : cols.filter (fun c => strLower c = k) ≠ [] := by
    intro he
    have := List.filter_eq_nil_iff.1 he c0 h0
    simp [hk] at this
  exact Option.isSome_iff_exists.1 (List.getLast?_isSome.2 hne)

theorem resolveRole_mem {cols : List String} {c : String} :
    ∀ {syns : List String}, (∀ k ∈ syns, ¬ k = "") →
      resolveRole cols syns = some c → c ∈ cols ∧ strLower c ∈ syns := by
  intro syns
  induction syns with
  | nil => intro _ h; simp [resolveRole] at h
  | cons k rest ih =>
    intro hne h
    rw [resolveRole] at h
    cases hc : colCandidates cols k with
    | none =>
      rw [hc] at h
      have h' : resolveRole cols rest = some c := h
      rcases ih (fun k' hk' => hne k' (List.mem_cons_of_mem _ hk')) h' with ⟨h1, h2⟩
      exact ⟨h1, List.mem_cons_of_mem _ h2⟩
    | some c' =>
      rcases colCandidates_eq_some hc with ⟨hmem, hlow⟩
      have hcne : ¬ c' = "" := by
        intro he
        exact hne k (List.mem_cons_self _ _) (by rw [← hlow, he, strLower_empty])
      rw [hc] at h
      rw [pyOr, if_neg hcne] at h
      cases h
      exact ⟨hmem, by rw [hlow]; exact List.mem_cons_self _ _⟩

theorem resolveRole_none {cols : List String} :
    ∀ {syns : List String}, (∀ c ∈ cols, ∀ k ∈ syns, ¬ strLower c = k) →
      resolveRole cols syns = none := by
  intro syns
  induction syns with
  | nil => intro _; rfl
  | cons k rest ih =>
    intro h
    rw [resolveRole, colCandidates_eq_none (fun c hc => h c hc k (List.mem_cons_self _ _)),
      ih (fun c hc k' hk' => h c hc k' (List.mem_cons_of_mem _ hk'))]
    rfl

theorem resolveRole_head {cols : List String} {k : String} (rest : List String) {c0 : String}
    (h0 : c0 ∈ cols) (hk : strLower c0 = k) (hkne : ¬ k = "") :
    ∃ c, resolveRole cols (k :: rest) = some c ∧ strLower c = k := by
  rcases colCandidates_exists h0 hk with ⟨c, hc⟩
  rcases colCandidates_eq_some hc with ⟨_, hl⟩
  have hcne : ¬ c = "" := by
    intro he
    exact hkne (by rw [← hl, he, strLower_empty])
  exact ⟨c, by rw [resolveRole, hc, pyOr, if_neg hcne], hl⟩

theorem msgClass_cases (x : String) :
    msgClass x = "debit" ∨ msgClass x = "credit" ∨ msgClass x = "unknown" := by
  unfold msgClass
  split
  · exact Or.inl rfl
  · split
    · exact Or.inr (Or.inl rfl)
    · exact Or.inr (Or.inr rfl)

theorem signType_cases (amt : Option ℚ) :
    signType amt = "debit" ∨ signType amt = "credit" ∨ signType amt = "unknown" := by
  cases amt with
  | none => exact Or.inr (Or.inr rfl)
  | some q =>
    by_cases h1 : q < 0
    · exact Or.inl (by simp [signType, h1])
    · by_cases h2 : q > 0
      · exact Or.inr (Or.inl (by simp [signType, h1, h2]))
      · exact Or.inr (Or.inr (by simp [signType, h1, h2]))

/-! The claims. -/

/-- C1: for every record whose type column is resolved, the classifier uses
the explicit type value: if the raw type value lower-cases and trims to
`debit`, the resulting kind is `debit`, whatever the message text says. -/
theorem C1_explicit_type_wins (rs : List RawRecord) (t : Transaction)
    (ht : t ∈ pipeline rs) (c : String)
    (hc : (resolve (columnsOf rs)).type_col = some c)
    (hv : strTrim (strLower (strOfCell (getCell t.raw c))) = "debit") :
    t.type = "debit" := by
  rcases List.mem_map.1 ht with ⟨r, hr, he⟩
  subst he
  have hv' : strTrim (strLower (strOfCell (getCell r c))) = "debit" := hv
  show typeOf (resolve (columnsOf rs)) r (amountOf rs (resolve (columnsOf rs)) r) = "debit"
  unfold typeOf
  rw [hc]
  exact hv'

/-- C1 witness: on a record with type text ` Debit ` and a message
containing `credited`, the pipeline classifies `debit`. -/
theorem C1_witness : C1t.type = "debit" :=
  C1_explicit_type_wins C1rs C1t (by decide) "Type" (by decide) (by decide)

/-- C2: evaluation of the code at the failing input of the claim.  The
record has a keyword-free message and amount `-50` with the type role
unresolved; the claimed sign fallback would give `debit`, but the message
classifier returns `unknown` for every keyword-free message and
`combine_first` therefore never reaches the sign-based column. -/
theorem C2_code_eval :
    (pipeline C2rs).map (fun t => t.type) = ["unknown"]
  ∧ (pipeline C2rs).map (fun t => t.amount) = [some (-50 : ℚ)]
  ∧ (resolve (columnsOf C2rs)).type_col = none
  ∧ (resolve (columnsOf C2rs)).message_col = some "Message" :=
  ⟨by decide, by decide, by decide, by decide⟩

/-- C3 counterexample: on the two-record scenario the daily debit total for
2024-01-01 is the signed sum `-50`, not the absolute magnitude `50` the
claim states. -/
theorem C3_counterexample :
    daily (pipeline C3rs) = [(⟨2024, 1, 1⟩, (-50 : ℚ))] ∧ (-50 : ℚ) ≠ 50 :=
  ⟨by decide, by decide⟩

/-- C3 (amended): the daily debit total for 2024-01-01 is `-50` (the sum of
the stored signed amounts; the code takes no absolute value) and the total
credit is `100`. -/
theorem C3_amended :
    daily (pipeline C3rs) = [(⟨2024, 1, 1⟩, (-50 : ℚ))]
  ∧ total_credit (pipeline C3rs) = 100 :=
  ⟨by decide, by decide⟩

/-- C4: the pipeline maps N raw records to exactly N transactions, in
order; the i-th transaction is the normalization of the i-th record and
carries its raw record unchanged, so no row is ever dropped. -/
theorem C4_pipeline_one_to_one (rs : List RawRecord) :
    (pipeline rs).length = rs.length
  ∧ (∀ i : ℕ, (pipeline rs)[i]? = (rs[i]?).map (mkTransaction rs (resolve (columnsOf rs))))
  ∧ (∀ i : ℕ, ∀ t, (pipeline rs)[i]? = some t → rs[i]? = some t.raw) := by
  refine ⟨by simp [pipeline], fun i => by simp [pipeline], ?_⟩
  intro i t h
  rw [pipeline, List.getElem?_map] at h
  rcases Option.map_eq_some'.1 h with ⟨r, hr, he⟩
  rw [← he, hr]
  rfl

/-- C4 witness: the first transaction of a one-record dataset carries that
record as its raw row. -/
theorem C4_witness : C4rs[0]? = some C4t.raw :=
  (C4_pipeline_one_to_one C4rs).2.2 0 C4t (by decide)

/-- C5 counterexample: with a resolved type column holding `Expense`, the
classifier output is the lower-cased raw text `expense`, outside the
three-value set the claim states. -/
theorem C5_counterexample :
    (pipeline [[("Type", Cell.str "Expense")]]).map (fun t => t.type) = ["expense"]
  ∧ ¬("expense" = "debit" ∨ "expense" = "credit" ∨ "expense" = "unknown") :=
  ⟨by decide, by decide⟩

/-- C5 (amended): when the type column is unresolved the classifier output
is always one of `debit`, `credit`, `unknown`; when the type column is
resolved the output is the lower-cased trimmed raw text, which can be any
string. -/
theorem C5_amended (rs : List RawRecord)
    (h : (resolve (columnsOf rs)).type_col = none)
    (t : Transaction) (ht : t ∈ pipeline rs) :
    t.type = "debit" ∨ t.type = "credit" ∨ t.type = "unknown" := by
  rcases List.mem_map.1 ht with ⟨r, hr, he⟩
  subst he
  have hty : (mkTransaction rs (resolve (columnsOf rs)) r).type
      = typeOf (resolve (columnsOf rs)) r (amountOf rs (resolve (columnsOf rs)) r) := rfl
  rw [hty]
  unfold typeOf
  rw [h]
  cases hm : (resolve (columnsOf rs)).message_col with
  | some c => exact msgClass_cases (strLower (strOfCell (getCell r c)))
  | none => exact signType_cases (amountOf rs (resolve (columnsOf rs)) r)

/-- C5 witness: a dataset without a type column classifies a negative
amount as `debit`, inside the three-value set. -/
theorem C5_witness : C5t.type = "debit" ∨ C5t.type = "credit" ∨ C5t.type = "unknown" :=
  C5_amended C5rs (by decide) C5t (by decide)

/-- C6: the weekday aggregate lists exactly the seven weekdays in the fixed
Monday..Sunday calendar order for every input, and a weekday with no debit
row reports a missing value, not zero. -/
theorem C6_weekday_fixed_order (ts : List Transaction) :
    (weekdayAvg ts).map Prod.fst = weekdayNames
  ∧ ∀ w ∈ weekdayNames, (∀ t ∈ ts, t.type = "debit" → ¬ t.weekday = some w) →
      (w, (none : Option ℚ)) ∈ weekdayAvg ts := by
  constructor
  · have hcomp : (Prod.fst ∘ fun w : String => (w, weekdayMean ts w)) = id := rfl
    rw [weekdayAvg, List.map_map, hcomp, List.map_id]
  · intro w hw h
    have hfil : (debitRows ts).filter (fun t => t.weekday = some w) = [] := by
      refine List.filter_eq_nil_iff.2 ?_
      intro t htf
      rw [debitRows] at htf
      rcases List.mem_filter.1 htf with ⟨hts, hdeb⟩
      simpa using h t hts (by simpa using hdeb)
    have hv : weekdayVals ts w = [] := by rw [weekdayVals, hfil]; rfl
    have hmean : weekdayMean ts w = none := by simp [weekdayMean, hv]
    exact List.mem_map.2 ⟨w, hw, by rw [hmean]⟩

/-- C6 witness: with a single credit transaction, Monday reports missing. -/
theorem C6_witness : ("Monday", (none : Option ℚ)) ∈ weekdayAvg C6ts :=
  (C6_weekday_fixed_order C6ts).2 "Monday" (by decide) (by decide)

/-- C7: the merchant aggregate holds at most 10 entries, is sorted in
descending order of total, and every entry has a non-empty merchant whose
total is the sum of the present amounts of the records with that
merchant. -/
theorem C7_top_merchants (ts : List Transaction) :
    (top_merchants ts).length ≤ 10
  ∧ (top_merchants ts).Pairwise (fun a b => b.2 ≤ a.2)
  ∧ ∀ p ∈ top_merchants ts, ¬ p.1 = "" ∧
      p.2 = qsum ((ts.filter (fun t => t.merchant = p.1)).filterMap (fun t => t.amount)) := by
  refine ⟨?_, ?_, ?_⟩
  · rw [top_merchants, List.length_take]
    exact min_le_left _ _
  · rw [top_merchants]
    refine List.Pairwise.sublist (List.take_sublist _ _) ?_
    refine List.Pairwise.imp (fun h => of_decide_eq_true h) ?_
    refine pairwise_sortLe _ ?_ ?_ _
    · intro a b
      rcases le_total b.2 a.2 with h | h
      · exact Or.inl (decide_eq_true h)
      · exact Or.inr (decide_eq_true h)
    · intro a b c h1 h2
      exact decide_eq_true (le_trans (of_decide_eq_true h2) (of_decide_eq_true h1))
  · intro p hp
    rw [top_merchants] at hp
    have hp1 := List.take_subset _ _ hp
    have hp2 := (mem_sortLe _ p _).1 hp1
    rcases List.mem_map.1 hp2 with ⟨m, hm, he⟩
    have hmne : ¬ m = "" := by
      have hm2 := (mem_sortLe _ m _).1 hm
      have hm3 := List.mem_dedup.1 hm2
      rcases List.mem_map.1 hm3 with ⟨u, hum, hue⟩
      rw [merchantRows] at hum
      rcases List.mem_filter.1 hum with ⟨_, hne⟩
      rw [← hue]
      simpa using hne
    subst he
    refine ⟨hmne, ?_⟩
    show merchantSum ts m = _
    rw [merchantSum, merchantRows, List.filter_filter]
    congr 1
    congr 1
    refine List.filter_congr ?_
    intro u _
    by_cases h : u.merchant = m
    · simp [h, hmne]
    · simp [h]

/-- C7 witness: a single debit row with merchant `Acme` and amount 5 yields
the entry `(Acme, 5)` with a non-empty merchant and the group sum. -/
theorem C7_witness :
    ¬("Acme", (5 : ℚ)).1 = "" ∧
      ("Acme", (5 : ℚ)).2
        = qsum ((C7ts.filter (fun t => t.merchant = ("Acme", (5 : ℚ)).1)).filterMap
            (fun t => t.amount)) :=
  (C7_top_merchants C7ts).2.2 ("Acme", (5 : ℚ)) (by decide)

/-- C8: column-role resolution is total and sound: a populated role's
target is one of the given columns whose lower-casing is one of the role's
synonyms, the first matching synonym of the ordered list wins, and a role
with no matching synonym is unresolved. -/
theorem C8_resolver_spec (cols : List String) :
    (∀ c, (resolve cols).date_col = some c → c ∈ cols ∧ strLower c ∈ ["datetime", "date"])
  ∧ (∀ c0 ∈ cols, strLower c0 = "datetime" →
      ∃ c, (resolve cols).date_col = some c ∧ strLower c = "datetime")
  ∧ ((∀ c ∈ cols, ¬ strLower c = "datetime" ∧ ¬ strLower c = "date") →
      (resolve cols).date_col = none)
  ∧ (∀ c, (resolve cols).amount_col = some c → c ∈ cols ∧ strLower c ∈ ["amount", "amt"])
  ∧ (∀ c0 ∈ cols, strLower c0 = "amount" →
      ∃ c, (resolve cols).amount_col = some c ∧ strLower c = "amount")
  ∧ ((∀ c ∈ cols, ¬ strLower c = "amount" ∧ ¬ strLower c = "amt") →
      (resolve cols).amount_col = none)
  ∧ (∀ c, (resolve cols).type_col = some c → c ∈ cols ∧ strLower c = "type")
  ∧ ((∀ c ∈ cols, ¬ strLower c = "type") → (resolve cols).type_col = none)
  ∧ (∀ c, (resolve cols).bank_col = some c → c ∈ cols ∧ strLower c = "bank")
  ∧ ((∀ c ∈ cols, ¬ strLower c = "bank") → (resolve cols).bank_col = none)
  ∧ (∀ c, (resolve cols).message_col = some c → c ∈ cols ∧ strLower c ∈ ["message", "msg"])
  ∧ (∀ c0 ∈ cols, strLower c0 = "message" →
      ∃ c, (resolve cols).message_col = some c ∧ strLower c = "message")
  ∧ ((∀ c ∈ cols, ¬ strLower c = "message" ∧ ¬ strLower c = "msg") →
      (resolve cols).message_col = none) := by
  refine ⟨?_, ?_, ?_, ?_, ?_, ?_, ?_, ?_, ?_, ?_, ?_, ?_, ?_⟩
  · intro c h
    exact resolveRole_mem (by decide) h
  · intro c0 h0 hk
    exact resolveRole_head ["date"] h0 hk (by decide)
  · intro h
    refine resolveRole_none ?_
    intro c hc k hk
    rcases List.mem_cons.1 hk with rfl | hk'
    · exact (h c hc).1
    · rcases List.mem_cons.1 hk' with rfl | hk''
      · exact (h c hc).2
      · simp at hk''
  · intro c h
    exact resolveRole_mem (by decide) h
  · intro c0 h0 hk
    exact resolveRole_head ["amt"] h0 hk (by decide)
  · intro h
    refine resolveRole_none ?_
    intro c hc k hk
    rcases List.mem_cons.1 hk with rfl | hk'
    · exact (h c hc).1
    · rcases List.mem_cons.1 hk' with rfl | hk''
      · exact (h c hc).2
      · simp at hk''
  · intro c h
    rcases resolveRole_mem (by decide) h with ⟨h1, h2⟩
    exact ⟨h1, by simpa using h2⟩
  · intro h
    refine resolveRole_none ?_
    intro c hc k hk
    rcases List.mem_cons.1 hk with rfl | hk'
    · exact h c hc
    · simp at hk'
  · intro c h
    rcases resolveRole_mem (by decide) h with ⟨h1, h2⟩
    exact ⟨h1, by simpa using h2⟩
  · intro h
    refine resolveRole_none ?_
    intro c hc k hk
    rcases List.mem_cons.1 hk with rfl | hk'
    · exact h c hc
    · simp at hk'
  · intro c h
    exact resolveRole_mem (by decide) h
  · intro c0 h0 hk
    exact resolveRole_head ["msg"] h0 hk (by decide)
  · intro h
    refine resolveRole_none ?_
    intro c hc k hk
    rcases List.mem_cons.1 hk with rfl | hk'
    · exact (h c hc).1
    · rcases List.mem_cons.1 hk' with rfl | hk''
      · exact (h c hc).2
      · simp at hk''

/-- C8 witness: over the columns `Amt`, `DATETIME` the date role resolves
case-insensitively to `DATETIME` through its first synonym. -/
theorem C8_witness :
    ∃ c, (resolve ["Amt", "DATETIME"]).date_col = some c ∧ strLower c = "datetime" :=
  (C8_resolver_spec ["Amt", "DATETIME"]).2.1 "DATETIME" (by decide) (by decide)

/-- C9 counterexample: a debit record with a valid date and an unparseable
amount is not excluded from the daily aggregate: it produces a zero-valued
group for its date, which disappears if the record is removed. -/
theorem C9_counterexample :
    (pipeline C9rs).map (fun t => t.amount) = [none]
  ∧ (pipeline C9rs).map (fun t => t.type) = ["debit"]
  ∧ daily (pipeline C9rs) = [(⟨2024, 1, 1⟩, 0)]
  ∧ daily ((pipeline C9rs).filter (fun t => t.amount.isSome)) = [] :=
  ⟨by decide, by decide, by decide, by decide⟩

/-- C9 (amended): absent-amount records contribute 0 to the total-spent
sum (dropping them changes nothing), are genuinely excluded from the
weekday averages (dropping them changes nothing, and a weekday whose debit
rows all lack amounts reports missing), and in the daily aggregate their
amounts are skipped while their dates still key zero-valued groups. -/
theorem C9_absent_amounts (ts : List Transaction) :
    total_debit ts = total_debit (ts.filter (fun t => t.amount.isSome))
  ∧ weekdayAvg ts = weekdayAvg (ts.filter (fun t => t.amount.isSome))
  ∧ ∀ p ∈ daily ts,
      p.2 = qsum ((ts.filter (fun t => t.date = some p.1 && t.type = "debit")).filterMap
        (fun t => t.amount)) := by
  refine ⟨?_, ?_, ?_⟩
  · rw [total_debit, total_debit, debitRows, debitRows, List.filter_filter,
      filterMap_amount_filter (fun t => t.type = "debit") ts]
  · rw [weekdayAvg, weekdayAvg]
    refine List.map_congr_left ?_
    intro w _
    have hv : weekdayVals (ts.filter (fun t => t.amount.isSome)) w = weekdayVals ts w := by
      rw [weekdayVals, weekdayVals, debitRows, debitRows, List.filter_filter,
        List.filter_filter, List.filter_filter,
        filterMap_amount_filter (fun t => t.weekday = some w && t.type = "debit") ts]
    rw [weekdayMean, weekdayMean, hv]
  · intro p hp
    rw [daily] at hp
    rcases List.mem_map.1 hp with ⟨d, hd, he⟩
    subst he
    show dailySum ts d = _
    rw [dailySum, debitRows, List.filter_filter]

/-- C9 witness: on a table with one absent-amount debit row the totals and
weekday averages agree with the amount-present restriction, and the daily
entry of its date sums to 0. -/
theorem C9_witness :
    total_debit C9ts = total_debit (C9ts.filter (fun t => t.amount.isSome))
  ∧ weekdayAvg C9ts = weekdayAvg (C9ts.filter (fun t => t.amount.isSome))
  ∧ ((⟨2024, 1, 1⟩ : Date), (0 : ℚ)).2
      = qsum ((C9ts.filter (fun t =>
          t.date = some ((⟨2024, 1, 1⟩ : Date), (0 : ℚ)).1 && t.type = "debit")).filterMap
            (fun t => t.amount)) :=
  ⟨(C9_absent_amounts C9ts).1, (C9_absent_amounts C9ts).2.1,
    (C9_absent_amounts C9ts).2.2 (⟨2024, 1, 1⟩, (0 : ℚ)) (by decide)⟩

/-- C10: a record whose timestamp is absent gets the literal month string
`NaT` and its `(NaT, kind)` key appears in the monthly aggregate. -/
theorem C10_nat_month (rs : List RawRecord) (t : Transaction)
    (ht : t ∈ pipeline rs) (hts : t.timestamp = none) :
    t.month = "NaT" ∧ ("NaT", t.type) ∈ (monthly (pipeline rs)).map Prod.fst := by
  rcases List.mem_map.1 ht with ⟨r, hr, he⟩
  subst he
  have hdt : dtOf rs (resolve (columnsOf rs)) r = none := hts
  have hmonth : (mkTransaction rs (resolve (columnsOf rs)) r).month = "NaT" := by
    show monthOf (dtOf rs (resolve (columnsOf rs)) r) = "NaT"
    rw [hdt]
    rfl
  refine ⟨hmonth, ?_⟩
  have hms : (monthly (pipeline rs)).map Prod.fst
      = sortLe keyLE (((pipeline rs).map (fun t => (t.month, t.type))).dedup) := by
    have hcomp : (Prod.fst ∘ fun k : String × String => (k, monthlySum (pipeline rs) k)) = id :=
      rfl
    rw [monthly, List.map_map, hcomp, List.map_id]
  rw [hms, mem_sortLe, List.mem_dedup]
  refine List.mem_map.2
    ⟨mkTransaction rs (resolve (columnsOf rs)) r, List.mem_map_of_mem _ hr, ?_⟩
  rw [hmonth]

/-- C10 witness: a record with an unparseable date lands in the monthly
aggregate under the `NaT` month key with its kind. -/
theorem C10_witness :
    C10t.month = "NaT" ∧ ("NaT", C10t.type) ∈ (monthly (pipeline C10rs)).map Prod.fst :=
  C10_nat_month C10rs C10t (by decide) (by decide)

end App
